import Mathlib

/-! Verification of the tauri configuration schema (src/cli/core/config_definition.rs)
    and of the CLI argument-schema validator/resolver described by the design
    specification.  The serde-derived deserializers of the Rust structs are shallowly
    embedded over a JSON value model; JSON numbers are modelled as integers (the
    claims under study only concern integral numeric fields). -/

/-- JSON values.  Objects keep their key/value pairs in document order. -/
inductive Json where
  | null
  | bool (b : Bool)
  | num (n : Int)
  | str (s : String)
  | arr (xs : List Json)
  | obj (kvs : List (String × Json))

/-- First value bound to a key in an object body, if any (serde reads fields by name). -/
def lookupJ (kvs : List (String × Json)) (key : String) : Option Json :=
  match kvs with
  | [] => none
  | (k, v) :: rest => if k == key then some v else lookupJ rest key

/-- serde rejects a document that binds the same field name twice. -/
def keysDistinct (kvs : List (String × Json)) : Bool :=
  match kvs with
  | [] => true
  | (k, _) :: rest => !(rest.any (fun kv => kv.1 == k)) && keysDistinct rest

/-- Embedding of a `deny_unknown_fields` struct header: the value must be an object,
    every key must be a declared field name, and no field may repeat. -/
def objFields (fields : List String) (j : Json) : Option (List (String × Json)) :=
  match j with
  | .obj kvs =>
    if keysDistinct kvs && kvs.all (fun kv => fields.contains kv.1) then some kvs else none
  | _ => none

/-- serde String deserialization. -/
def decodeString (j : Json) : Option String :=
  match j with
  | .str s => some s
  | _ => none

/-- serde bool deserialization. -/
def decodeBool (j : Json) : Option Bool :=
  match j with
  | .bool b => some b
  | _ => none

/-- serde u64 deserialization: a non-negative JSON integer. -/
def decodeU64 (j : Json) : Option Nat :=
  match j with
  | .num n => if 0 ≤ n then some n.toNat else none
  | _ => none

/-- serde u16 deserialization: a JSON integer in 0..=65535. -/
def decodeU16 (j : Json) : Option Nat :=
  match j with
  | .num n => if 0 ≤ n && n ≤ 65535 then some n.toNat else none
  | _ => none

/-- serde f64 deserialization, restricted to the integral JSON numbers of this model. -/
def decodeF64 (j : Json) : Option Int :=
  match j with
  | .num n => some n
  | _ => none

/-- serde char deserialization: a one-character JSON string. -/
def decodeChar (j : Json) : Option Char :=
  match j with
  | .str s => match s.toList with
    | [c] => some c
    | _ => none
  | _ => none

/-- serde Vec of String deserialization. -/
def decodeStringList (j : Json) : Option (List String) :=
  match j with
  | .arr xs => xs.mapM decodeString
  | _ => none

/-- An optional struct field (Rust Option type): a missing key or an explicit null
    yields None; any other value is deserialized by the element deserializer. -/
def optField (kvs : List (String × Json)) (key : String) (dec : Json → Option α) :
    Option (Option α) :=
  match lookupJ kvs key with
  | none => some none
  | some .null => some none
  | some v => (dec v).map some

/-- A struct field carrying a serde default: a missing key yields the default,
    a present key (null included) goes through the field deserializer. -/
def defField (kvs : List (String × Json)) (key : String) (dec : Json → Option α)
    (dflt : α) : Option α :=
  match lookupJ kvs key with
  | none => some dflt
  | some v => dec v

/-- A mandatory struct field: missing key is an error. -/
def reqField (kvs : List (String × Json)) (key : String) (dec : Json → Option α) :
    Option α :=
  (lookupJ kvs key).bind dec

/-- Monadic bind on Option, spelled out; decoder chains are built from it. -/
def obind (o : Option α) (f : α → Option β) : Option β :=
  match o with
  | none => none
  | some x => f x

/-- Rust enum BundleTarget: an untagged union of all targets (a list) or one target. -/
inductive BundleTarget where
  | All (targets : List String)
  | One (target : String)

/-- serde untagged deserialization of BundleTarget: the variants are tried in
    declaration order, All (a string list) first, then One (a single string). -/
def decodeBundleTarget (j : Json) : Option BundleTarget :=
  match decodeStringList j with
  | some l => some (.All l)
  | none =>
    match decodeString j with
    | some s => some (.One s)
    | none => none

/-- Rust enum Port: an untagged union of a numeric port value or a random port. -/
inductive Port where
  | Value (v : Nat)
  | Random

/-- serde untagged deserialization of Port: the variants are tried in declaration
    order, Value (a u16) first, then the unit variant Random, which in JSON only
    matches null. -/
def decodePort (j : Json) : Option Port :=
  match decodeU16 j with
  | some n => some (.Value n)
  | none =>
    match j with
    | .null => some .Random
    | _ => none

/-- Deserialization following the specification text instead of the declaration
    order: the single-value shape is tried first, the collection shape second. -/
def decodeBundleTargetSpecOrder (j : Json) : Option BundleTarget :=
  match decodeString j with
  | some s => some (.One s)
  | none =>
    match decodeStringList j with
    | some l => some (.All l)
    | none => none

/-- Rust struct DebConfig. -/
structure DebConfig where
  depends : Option (List String)
  use_bootstrapper : Bool

/-- Derived Default for DebConfig. -/
def DebConfig.default : DebConfig := ⟨none, false⟩

def fieldsDebConfig : List String := ["depends", "useBootstrapper"]

/-- serde deserializer of DebConfig (camelCase names, deny_unknown_fields). -/
def decodeDebConfig (j : Json) : Option DebConfig :=
  obind (objFields fieldsDebConfig j) fun kvs =>
  obind (optField kvs "depends" decodeStringList) fun depends =>
  obind (defField kvs "useBootstrapper" decodeBool false) fun useBootstrapper =>
  some ⟨depends, useBootstrapper⟩

/-- Rust struct OsxConfig. -/
structure OsxConfig where
  frameworks : Option (List String)
  minimum_system_version : Option String
  exception_domain : Option String
  license : Option String
  use_bootstrapper : Bool

/-- Derived Default for OsxConfig. -/
def OsxConfig.default : OsxConfig := ⟨none, none, none, none, false⟩

def fieldsOsxConfig : List String :=
  ["frameworks", "minimumSystemVersion", "exceptionDomain", "license", "useBootstrapper"]

/-- serde deserializer of OsxConfig (camelCase names, deny_unknown_fields). -/
def decodeOsxConfig (j : Json) : Option OsxConfig :=
  obind (objFields fieldsOsxConfig j) fun kvs =>
  obind (optField kvs "frameworks" decodeStringList) fun frameworks =>
  obind (optField kvs "minimumSystemVersion" decodeString) fun minimumSystemVersion =>
  obind (optField kvs "exceptionDomain" decodeString) fun exceptionDomain =>
  obind (optField kvs "license" decodeString) fun license =>
  obind (defField kvs "useBootstrapper" decodeBool false) fun useBootstrapper =>
  some ⟨frameworks, minimumSystemVersion, exceptionDomain, license, useBootstrapper⟩

/-- Rust struct BundleConfig. -/
structure BundleConfig where
  active : Bool
  targets : Option BundleTarget
  name : Option String
  identifier : Option String
  icon : Option (List String)
  version : Option String
  resources : Option (List String)
  copyright : Option String
  category : Option String
  short_description : Option String
  long_description : Option String
  script : Option String
  deb : DebConfig
  osx : OsxConfig
  external_bin : Option (List String)

/-- Derived Default for BundleConfig. -/
def BundleConfig.default : BundleConfig :=
  ⟨false, none, none, none, none, none, none, none, none, none, none, none,
   DebConfig.default, OsxConfig.default, none⟩

def fieldsBundleConfig : List String :=
  ["active", "targets", "name", "identifier", "icon", "version", "resources",
   "copyright", "category", "shortDescription", "longDescription", "script",
   "deb", "osx", "externalBin"]

/-- serde deserializer of BundleConfig (camelCase names, deny_unknown_fields). -/
def decodeBundleConfig (j : Json) : Option BundleConfig :=
  obind (objFields fieldsBundleConfig j) fun kvs =>
  obind (reqField kvs "active" decodeBool) fun active =>
  obind (optField kvs "targets" decodeBundleTarget) fun targets =>
  obind (optField kvs "name" decodeString) fun name =>
  obind (optField kvs "identifier" decodeString) fun identifier =>
  obind (optField kvs "icon" decodeStringList) fun icon =>
  obind (optField kvs "version" decodeString) fun version =>
  obind (optField kvs "resources" decodeStringList) fun resources =>
  obind (optField kvs "copyright" decodeString) fun copyright =>
  obind (optField kvs "category" decodeString) fun category =>
  obind (optField kvs "shortDescription" decodeString) fun shortDescription =>
  obind (optField kvs "longDescription" decodeString) fun longDescription =>
  obind (optField kvs "script" decodeString) fun script =>
  obind (defField kvs "deb" decodeDebConfig DebConfig.default) fun deb =>
  obind (defField kvs "osx" decodeOsxConfig OsxConfig.default) fun osx =>
  obind (optField kvs "externalBin" decodeStringList) fun externalBin =>
  some ⟨active, targets, name, identifier, icon, version, resources, copyright,
        category, shortDescription, longDescription, script, deb, osx, externalBin⟩

/-- Rust struct CliArg: a CLI argument definition. -/
structure CliArg where
  short : Option Char
  name : String
  description : Option String
  long_description : Option String
  takes_value : Option Bool
  multiple : Option Bool
  multiple_occurrences : Option Bool
  number_of_values : Option Nat
  possible_values : Option (List String)
  min_values : Option Nat
  max_values : Option Nat
  required : Option Bool
  required_unless_present : Option String
  required_unless_present_all : Option (List String)
  required_unless_present_any : Option (List String)
  conflicts_with : Option String
  conflicts_with_all : Option (List String)
  requires : Option String
  requires_all : Option (List String)
  requires_if : Option (List String)
  required_if_eq : Option (List String)
  require_equals : Option Bool
  index : Option Nat

def fieldsCliArg : List String :=
  ["short", "name", "description", "longDescription", "takesValue", "multiple",
   "multipleOccurrences", "numberOfValues", "possibleValues", "minValues",
   "maxValues", "required", "requiredUnlessPresent", "requiredUnlessPresentAll",
   "requiredUnlessPresentAny", "conflictsWith", "conflictsWithAll", "requires",
   "requiresAll", "requiresIf", "requiredIfEq", "requireEquals", "index"]

/-- serde deserializer of CliArg (camelCase names, deny_unknown_fields). -/
def decodeCliArg (j : Json) : Option CliArg :=
  obind (objFields fieldsCliArg j) fun kvs =>
  obind (optField kvs "short" decodeChar) fun short =>
  obind (reqField kvs "name" decodeString) fun name =>
  obind (optField kvs "description" decodeString) fun description =>
  obind (optField kvs "longDescription" decodeString) fun longDescription =>
  obind (optField kvs "takesValue" decodeBool) fun takesValue =>
  obind (optField kvs "multiple" decodeBool) fun multiple =>
  obind (optField kvs "multipleOccurrences" decodeBool) fun multipleOccurrences =>
  obind (optField kvs "numberOfValues" decodeU64) fun numberOfValues =>
  obind (optField kvs "possibleValues" decodeStringList) fun possibleValues =>
  obind (optField kvs "minValues" decodeU64) fun minValues =>
  obind (optField kvs "maxValues" decodeU64) fun maxValues =>
  obind (optField kvs "required" decodeBool) fun required =>
  obind (optField kvs "requiredUnlessPresent" decodeString) fun requiredUnlessPresent =>
  obind (optField kvs "requiredUnlessPresentAll" decodeStringList) fun requiredUnlessPresentAll =>
  obind (optField kvs "requiredUnlessPresentAny" decodeStringList) fun requiredUnlessPresentAny =>
  obind (optField kvs "conflictsWith" decodeString) fun conflictsWith =>
  obind (optField kvs "conflictsWithAll" decodeStringList) fun conflictsWithAll =>
  obind (optField kvs "requires" decodeString) fun requiresField =>
  obind (optField kvs "requiresAll" decodeStringList) fun requiresAll =>
  obind (optField kvs "requiresIf" decodeStringList) fun requiresIf =>
  obind (optField kvs "requiredIfEq" decodeStringList) fun requiredIfEq =>
  obind (optField kvs "requireEquals" decodeBool) fun requireEquals =>
  obind (optField kvs "index" decodeU64) fun index =>
  some ⟨short, name, description, longDescription, takesValue, multiple,
        multipleOccurrences, numberOfValues, possibleValues, minValues, maxValues,
        required, requiredUnlessPresent, requiredUnlessPresentAll,
        requiredUnlessPresentAny, conflictsWith, conflictsWithAll, requiresField,
        requiresAll, requiresIf, requiredIfEq, requireEquals, index⟩

/-- Rust struct CliConfig: a CLI command with args and recursive subcommands
    (the subcommand map is kept in document order). -/
inductive CliConfig where
  | mk (description : Option String) (long_description : Option String)
       (before_help : Option String) (after_help : Option String)
       (args : Option (List CliArg))
       (subcommands : Option (List (String × CliConfig)))

def CliConfig.args : CliConfig → Option (List CliArg)
  | .mk _ _ _ _ a _ => a

def CliConfig.subcommands : CliConfig → Option (List (String × CliConfig))
  | .mk _ _ _ _ _ s => s

def fieldsCliConfig : List String :=
  ["description", "longDescription", "beforeHelp", "afterHelp", "args", "subcommands"]

/-- serde deserializer of a Vec of CliArg. -/
def decodeCliArgList (j : Json) : Option (List CliArg) :=
  match j with
  | .arr xs => xs.mapM decodeCliArg
  | _ => none

mutual

/-- serde deserializer of CliConfig (camelCase names, deny_unknown_fields);
    recursive through the subcommand map. -/
def decodeCliConfig : Json → Option CliConfig
  | .obj kvs =>
    if keysDistinct kvs && kvs.all (fun kv => fieldsCliConfig.contains kv.1) then
      obind (optField kvs "description" decodeString) fun d =>
      obind (optField kvs "longDescription" decodeString) fun ld =>
      obind (optField kvs "beforeHelp" decodeString) fun bh =>
      obind (optField kvs "afterHelp" decodeString) fun ah =>
      obind (optField kvs "args" decodeCliArgList) fun args =>
      obind (decodeSubsField kvs) fun subs =>
      some (.mk d ld bh ah args subs)
    else none
  | _ => none

/-- Deserializer of the optional subcommands field of a CliConfig object body:
    a missing key or null yields None, an object yields the decoded map. -/
def decodeSubsField : List (String × Json) → Option (Option (List (String × CliConfig)))
  | [] => some none
  | (k, v) :: rest =>
    if k == "subcommands" then
      match v with
      | .null => some none
      | .obj skvs => (decodeSubMap skvs).map some
      | _ => none
    else decodeSubsField rest

/-- Deserializer of a map from subcommand name to CliConfig. -/
def decodeSubMap : List (String × Json) → Option (List (String × CliConfig))
  | [] => some []
  | (k, v) :: rest =>
    match decodeCliConfig v, decodeSubMap rest with
    | some c, some cs => some ((k, c) :: cs)
    | _, _ => none

end

/-- Rust struct EmbeddedServerConfig. -/
structure EmbeddedServerConfig where
  host : Option String
  port : Option Port
  public_path : Option String

/-- Derived Default for EmbeddedServerConfig. -/
def EmbeddedServerConfig.default : EmbeddedServerConfig := ⟨none, none, none⟩

def fieldsEmbeddedServerConfig : List String := ["host", "port", "publicPath"]

/-- serde deserializer of EmbeddedServerConfig (camelCase names, deny_unknown_fields). -/
def decodeEmbeddedServerConfig (j : Json) : Option EmbeddedServerConfig :=
  obind (objFields fieldsEmbeddedServerConfig j) fun kvs =>
  obind (optField kvs "host" decodeString) fun host =>
  obind (optField kvs "port" decodePort) fun port =>
  obind (optField kvs "publicPath" decodeString) fun publicPath =>
  some ⟨host, port, publicPath⟩

/-- Rust struct WindowConfig (f64 fields restricted to the integral numbers of
    this JSON model). -/
structure WindowConfig where
  label : Option String
  url : Option String
  x : Option Int
  y : Option Int
  width : Option Int
  height : Option Int
  min_width : Option Int
  min_height : Option Int
  max_width : Option Int
  max_height : Option Int
  resizable : Bool
  title : Option String
  fullscreen : Bool
  transparent : Bool
  maximized : Bool
  visible : Bool
  decorations : Bool
  always_on_top : Bool

def fieldsWindowConfig : List String :=
  ["label", "url", "x", "y", "width", "height", "minWidth", "minHeight",
   "maxWidth", "maxHeight", "resizable", "title", "fullscreen", "transparent",
   "maximized", "visible", "decorations", "alwaysOnTop"]

/-- serde deserializer of WindowConfig (camelCase names, deny_unknown_fields). -/
def decodeWindowConfig (j : Json) : Option WindowConfig :=
  obind (objFields fieldsWindowConfig j) fun kvs =>
  obind (optField kvs "label" decodeString) fun label =>
  obind (optField kvs "url" decodeString) fun url =>
  obind (optField kvs "x" decodeF64) fun x =>
  obind (optField kvs "y" decodeF64) fun y =>
  obind (optField kvs "width" decodeF64) fun width =>
  obind (optField kvs "height" decodeF64) fun height =>
  obind (optField kvs "minWidth" decodeF64) fun minWidth =>
  obind (optField kvs "minHeight" decodeF64) fun minHeight =>
  obind (optField kvs "maxWidth" decodeF64) fun maxWidth =>
  obind (optField kvs "maxHeight" decodeF64) fun maxHeight =>
  obind (defField kvs "resizable" decodeBool false) fun resizable =>
  obind (optField kvs "title" decodeString) fun title =>
  obind (defField kvs "fullscreen" decodeBool false) fun fullscreen =>
  obind (defField kvs "transparent" decodeBool false) fun transparent =>
  obind (defField kvs "maximized" decodeBool false) fun maximized =>
  obind (defField kvs "visible" decodeBool false) fun visible =>
  obind (defField kvs "decorations" decodeBool false) fun decorations =>
  obind (defField kvs "alwaysOnTop" decodeBool false) fun alwaysOnTop =>
  some ⟨label, url, x, y, width, height, minWidth, minHeight, maxWidth, maxHeight,
        resizable, title, fullscreen, transparent, maximized, visible, decorations,
        alwaysOnTop⟩

/-- Rust struct SecurityConfig. -/
structure SecurityConfig where
  csp : Option String

def fieldsSecurityConfig : List String := ["csp"]

/-- serde deserializer of SecurityConfig (camelCase names, deny_unknown_fields). -/
def decodeSecurityConfig (j : Json) : Option SecurityConfig :=
  obind (objFields fieldsSecurityConfig j) fun kvs =>
  obind (optField kvs "csp" decodeString) fun csp =>
  some ⟨csp⟩

/-- Rust struct TauriConfig. -/
structure TauriConfig where
  windows : List WindowConfig
  cli : Option CliConfig
  embedded_server : EmbeddedServerConfig
  bundle : BundleConfig
  allowlist : List (String × Bool)
  security : Option SecurityConfig

/-- Derived Default for TauriConfig. -/
def TauriConfig.default : TauriConfig :=
  ⟨[], none, EmbeddedServerConfig.default, BundleConfig.default, [], none⟩

def fieldsTauriConfig : List String :=
  ["windows", "cli", "embeddedServer", "bundle", "allowlist", "security"]

/-- serde deserializer of a Vec of WindowConfig. -/
def decodeWindowList (j : Json) : Option (List WindowConfig) :=
  match j with
  | .arr xs => xs.mapM decodeWindowConfig
  | _ => none

/-- serde deserializer of the allowlist map from String to bool. -/
def decodeAllowlist (j : Json) : Option (List (String × Bool)) :=
  match j with
  | .obj kvs => kvs.mapM (fun kv => (decodeBool kv.2).map (fun b => (kv.1, b)))
  | _ => none

/-- serde deserializer of TauriConfig (camelCase names, deny_unknown_fields). -/
def decodeTauriConfig (j : Json) : Option TauriConfig :=
  obind (objFields fieldsTauriConfig j) fun kvs =>
  obind (defField kvs "windows" decodeWindowList []) fun windows =>
  obind (optField kvs "cli" decodeCliConfig) fun cli =>
  obind (defField kvs "embeddedServer" decodeEmbeddedServerConfig
          EmbeddedServerConfig.default) fun embeddedServer =>
  obind (defField kvs "bundle" decodeBundleConfig BundleConfig.default) fun bundle =>
  obind (defField kvs "allowlist" decodeAllowlist []) fun allowlist =>
  obind (optField kvs "security" decodeSecurityConfig) fun security =>
  some ⟨windows, cli, embeddedServer, bundle, allowlist, security⟩

/-- Rust struct BuildConfig. -/
structure BuildConfig where
  dev_path : String
  dist_dir : String
  before_dev_command : Option String
  before_build_command : Option String
  with_global_tauri : Bool

/-- Source function default_dev_path. -/
def default_dev_path : String := ""

/-- Source function default_dist_dir. -/
def default_dist_dir : String := "../dist"

def fieldsBuildConfig : List String :=
  ["devPath", "distDir", "beforeDevCommand", "beforeBuildCommand", "withGlobalTauri"]

/-- serde deserializer of BuildConfig (camelCase names, deny_unknown_fields). -/
def decodeBuildConfig (j : Json) : Option BuildConfig :=
  obind (objFields fieldsBuildConfig j) fun kvs =>
  obind (defField kvs "devPath" decodeString default_dev_path) fun devPath =>
  obind (defField kvs "distDir" decodeString default_dist_dir) fun distDir =>
  obind (optField kvs "beforeDevCommand" decodeString) fun beforeDevCommand =>
  obind (optField kvs "beforeBuildCommand" decodeString) fun beforeBuildCommand =>
  obind (defField kvs "withGlobalTauri" decodeBool false) fun withGlobalTauri =>
  some ⟨devPath, distDir, beforeDevCommand, beforeBuildCommand, withGlobalTauri⟩

/-- Source function default_build. -/
def default_build : BuildConfig :=
  ⟨default_dev_path, default_dist_dir, none, none, false⟩

/-- Rust struct Config: the tauri.conf.json mapper. -/
structure Config where
  tauri : TauriConfig
  build : BuildConfig
  plugins : List (String × List (String × Json))

def fieldsConfig : List String := ["tauri", "build", "plugins"]

/-- serde deserializer of a JsonObject (HashMap from String to JsonValue). -/
def decodeJsonObject (j : Json) : Option (List (String × Json)) :=
  match j with
  | .obj kvs => some kvs
  | _ => none

/-- serde deserializer of the plugins map from String to JsonObject. -/
def decodePlugins (j : Json) : Option (List (String × List (String × Json))) :=
  match j with
  | .obj kvs => kvs.mapM (fun kv => (decodeJsonObject kv.2).map (fun o => (kv.1, o)))
  | _ => none

/-- serde deserializer of Config (camelCase names, deny_unknown_fields). -/
def decodeConfig (j : Json) : Option Config :=
  obind (objFields fieldsConfig j) fun kvs =>
  obind (defField kvs "tauri" decodeTauriConfig TauriConfig.default) fun tauri =>
  obind (defField kvs "build" decodeBuildConfig default_build) fun build =>
  obind (defField kvs "plugins" decodePlugins []) fun plugins =>
  some ⟨tauri, build, plugins⟩

/-- Modelled from the spec: the SchemaError family of §7 — the source under src only
    declares the CliConfig/CliArg data model, the SchemaValidator itself is missing. -/
inductive SchemaError where
  | DuplicateName (name : String)
  | DuplicateShort (c : Char)
  | DuplicateIndex (i : Nat)
  | InvalidMultiplePosition (name : String)
  | DanglingReference (arg : String) (target : String)
  | InvalidValueBounds (name : String)

/-- The argument rules held by a command node (absent list treated as empty). -/
def argList (node : CliConfig) : List CliArg := node.args.getD []

/-- Names that occur a second time later in the argument list. -/
def duplicateNames : List CliArg → List String
  | [] => []
  | a :: rest =>
    (if rest.any (fun b => b.name == a.name) then [a.name] else []) ++ duplicateNames rest

/-- Modelled from the spec: the resolved short alias — leading dash characters are
    stripped and only a remaining character counts. -/
def resolvedShort (a : CliArg) : Option Char :=
  match a.short with
  | some c => if c == '-' then none else some c
  | none => none

/-- Resolved short aliases that occur a second time later in the argument list. -/
def duplicateShorts : List CliArg → List Char
  | [] => []
  | a :: rest =>
    (match resolvedShort a with
     | some c => if rest.any (fun b => resolvedShort b == some c) then [c] else []
     | none => []) ++ duplicateShorts rest

/-- Positional indices that occur a second time later in the argument list. -/
def duplicateIndices : List CliArg → List Nat
  | [] => []
  | a :: rest =>
    (match a.index with
     | some i => if rest.any (fun b => b.index == some i) then [i] else []
     | none => []) ++ duplicateIndices rest

/-- The highest positional index declared among the arguments. -/
def maxIndexOf (args : List CliArg) : Nat :=
  (args.filterMap (fun a => a.index)).foldr max 0

/-- Modelled from the spec: a multiple argument whose index is not the maximum
    positional index of its node. -/
def invalidMultiplePositions (args : List CliArg) : List String :=
  args.filterMap (fun a =>
    match a.index with
    | some i => if a.multiple.getD false && i < maxIndexOf args then some a.name else none
    | none => none)

/-- Every sibling name referenced by the constraint fields of an argument; for the
    [argument, value] pairs only the argument component is a reference. -/
def refNames (a : CliArg) : List String :=
  a.conflicts_with.toList ++ (a.conflicts_with_all.getD []) ++
  a.requires.toList ++ (a.requires_all.getD []) ++
  a.required_unless_present.toList ++ (a.required_unless_present_all.getD []) ++
  (a.required_unless_present_any.getD []) ++
  (match a.requires_if with | some (r :: _) => [r] | _ => []) ++
  (match a.required_if_eq with | some (r :: _) => [r] | _ => [])

/-- References that do not name any argument of the same node. -/
def danglingRefs (args : List CliArg) : List (String × String) :=
  args.flatMap (fun a =>
    ((refNames a).filter (fun r => !(args.any (fun b => b.name == r)))).map
      (fun r => (a.name, r)))

/-- Arguments whose two value bounds are both set in the wrong order. -/
def invalidBounds (args : List CliArg) : List String :=
  args.filterMap (fun a =>
    match a.min_values, a.max_values with
    | some m, some M => if M < m then some a.name else none
    | _, _ => none)

/-- Modelled from the spec: the structural checks of the SchemaValidator (§4.1) on a
    single node, reported as the aggregated list the specification allows. -/
def nodeValidate (node : CliConfig) : List SchemaError :=
  (duplicateNames (argList node)).map .DuplicateName ++
  (duplicateShorts (argList node)).map .DuplicateShort ++
  (duplicateIndices (argList node)).map .DuplicateIndex ++
  (invalidMultiplePositions (argList node)).map .InvalidMultiplePosition ++
  (danglingRefs (argList node)).map (fun p => .DanglingReference p.1 p.2) ++
  (invalidBounds (argList node)).map .InvalidValueBounds

mutual

/-- A command node together with every node of its subcommand tree. -/
def nodes : CliConfig → List CliConfig
  | .mk d ld bh ah args subs => .mk d ld bh ah args subs :: nodesOpt subs

def nodesOpt : Option (List (String × CliConfig)) → List CliConfig
  | none => []
  | some l => nodesSubs l

def nodesSubs : List (String × CliConfig) → List CliConfig
  | [] => []
  | (_, c) :: rest => nodes c ++ nodesSubs rest

end

/-- Modelled from the spec: the SchemaValidator of §4.1, which is not part of the
    source under src — validate walks every node of the tree and aggregates every
    structural declaration defect (an empty list means the tree is accepted). -/
def validate (t : CliConfig) : List SchemaError :=
  (nodes t).flatMap nodeValidate

/-- Modelled from the spec: the ConstraintViolation family of §7 — the source under
    src only declares the data model, the ConstraintResolver itself is missing. -/
inductive ConstraintViolation where
  | MissingRequired (name : String)
  | ConflictingArguments (a : String) (b : String)
  | MissingDependency (a : String) (b : String)
  | MissingConditionalDependency (a : String) (b : String)
  | InvalidValue (name : String) (value : String)
  | ValueCountOutOfRange (name : String)

/-- An invocation's observed values: each supplied argument name mapped to its list
    of supplied string values (an empty list marks a present flag). -/
abbrev Observed := List (String × List String)

/-- First binding of an argument name among the observed values, if any. -/
def lookupObs (obs : Observed) (name : String) : Option (List String) :=
  match obs with
  | [] => none
  | (k, v) :: rest => if k == name then some v else lookupObs rest name

/-- An argument is present when the observed values contain its name. -/
def isPresent (obs : Observed) (name : String) : Bool :=
  (lookupObs obs name).isSome

/-- The values supplied for an argument (empty when absent). -/
def valuesOf (obs : Observed) (name : String) : List String :=
  (lookupObs obs name).getD []

/-- Modelled from the spec: effective requiredness of §4.2 step 2 — the base flag,
    then the unless-present clearing clauses, then required_if_eq last, which can
    re-assert requiredness. -/
def effectiveRequired (obs : Observed) (a : CliArg) : Bool :=
  let r0 := a.required.getD false
  let r1 := match a.required_unless_present with
    | some s => if isPresent obs s then false else r0
    | none => r0
  let r2 := match a.required_unless_present_all with
    | some l => if l.all (isPresent obs) then false else r1
    | none => r1
  let r3 := match a.required_unless_present_any with
    | some l => if l.any (isPresent obs) then false else r2
    | none => r2
  match a.required_if_eq with
  | some [other, v] => if (valuesOf obs other).contains v then true else r3
  | _ => r3

/-- The conflict partners declared by an argument. -/
def conflictList (a : CliArg) : List String :=
  a.conflicts_with.toList ++ (a.conflicts_with_all.getD [])

/-- The dependency partners declared by an argument. -/
def dependList (a : CliArg) : List String :=
  a.requires.toList ++ (a.requires_all.getD [])

/-- Two name pairs denote the same unordered conflict pair. -/
def pairMatches (p q : String × String) : Bool :=
  (q.1 == p.1 && q.2 == p.2) || (q.1 == p.2 && q.2 == p.1)

/-- Deduplication of conflict pairs up to orientation, keeping first occurrences;
    the seen accumulator holds the pairs already emitted. -/
def dedupPairsAux (seen : List (String × String)) :
    List (String × String) → List (String × String)
  | [] => []
  | p :: rest =>
    if seen.any (fun q => pairMatches q p) then dedupPairsAux seen rest
    else p :: dedupPairsAux (p :: seen) rest

/-- Deduplication of conflict pairs up to orientation. -/
def dedupPairs (l : List (String × String)) : List (String × String) :=
  dedupPairsAux [] l

/-- Violations of §4.2 step 2: effectively required arguments that are absent. -/
def missingRequiredViolations (args : List CliArg) (obs : Observed) :
    List ConstraintViolation :=
  args.filterMap (fun a =>
    if effectiveRequired obs a && !(isPresent obs a.name) then
      some (.MissingRequired a.name)
    else none)

/-- Conflict pairs of §4.2 step 3 before deduplication, in declaration order. -/
def rawConflictPairs (args : List CliArg) (obs : Observed) : List (String × String) :=
  args.flatMap (fun a =>
    if isPresent obs a.name then
      ((conflictList a).filter (fun b => isPresent obs b)).map (fun b => (a.name, b))
    else [])

/-- Violations of §4.2 step 3: each conflicting pair reported once. -/
def conflictViolations (args : List CliArg) (obs : Observed) :
    List ConstraintViolation :=
  (dedupPairs (rawConflictPairs args obs)).map (fun p => .ConflictingArguments p.1 p.2)

/-- Violations of §4.2 step 4: present arguments with an absent dependency. -/
def dependencyViolations (args : List CliArg) (obs : Observed) :
    List ConstraintViolation :=
  args.flatMap (fun a =>
    if isPresent obs a.name then
      ((dependList a).filter (fun r => !(isPresent obs r))).map
        (fun r => .MissingDependency a.name r)
    else [])

/-- Violations of §4.2 step 5: an activated requires_if condition with the owning
    argument absent. -/
def conditionalDependencyViolations (args : List CliArg) (obs : Observed) :
    List ConstraintViolation :=
  args.filterMap (fun a =>
    match a.requires_if with
    | some [other, v] =>
      if (valuesOf obs other).contains v && !(isPresent obs a.name) then
        some (.MissingConditionalDependency a.name other)
      else none
    | _ => none)

/-- Violations of §4.2 step 6: supplied values outside the declared domain. -/
def invalidValueViolations (args : List CliArg) (obs : Observed) :
    List ConstraintViolation :=
  args.flatMap (fun a =>
    match a.possible_values with
    | some pv =>
      if isPresent obs a.name then
        ((valuesOf obs a.name).filter (fun v => !(pv.contains v))).map
          (fun v => .InvalidValue a.name v)
      else []
    | none => [])

/-- Cardinality rule of §4.2 step 7: number_of_values exact when set, otherwise the
    min/max bounds with an absent bound unbounded on its side. -/
def valueCountOk (a : CliArg) (n : Nat) : Bool :=
  match a.number_of_values with
  | some k => n == k
  | none =>
    (match a.min_values with | some m => decide (m ≤ n) | none => true) &&
    (match a.max_values with | some M => decide (n ≤ M) | none => true)

/-- Violations of §4.2 step 7 for present arguments. -/
def valueCountViolations (args : List CliArg) (obs : Observed) :
    List ConstraintViolation :=
  args.filterMap (fun a =>
    if isPresent obs a.name && !(valueCountOk a (valuesOf obs a.name).length) then
      some (.ValueCountOutOfRange a.name)
    else none)

/-- Modelled from the spec: the ConstraintResolver of §4.2, which is not part of the
    source under src — resolve examines every rule of the node against the observed
    values and returns the full list of violations found, never stopping early. -/
def resolve (node : CliConfig) (obs : Observed) : List ConstraintViolation :=
  missingRequiredViolations (argList node) obs ++
  conflictViolations (argList node) obs ++
  dependencyViolations (argList node) obs ++
  conditionalDependencyViolations (argList node) obs ++
  invalidValueViolations (argList node) obs ++
  valueCountViolations (argList node) obs

/-- A CliArg with a name and every optional field unset; concrete schemas in the
    development are built from it. -/
def blankArg (name : String) : CliArg :=
  ⟨none, name, none, none, none, none, none, none, none, none, none, none, none,
   none, none, none, none, none, none, none, none, none, none⟩

/-- A CliArg whose only set constraint is required = true. -/
def requiredArg (name : String) : CliArg :=
  { blankArg name with required := some true }

theorem obind_eq_some {o : Option α} {f : α → Option β} {b : β} :
    obind o f = some b ↔ ∃ a, o = some a ∧ f a = some b := by
  cases o <;> simp [obind]

theorem all_eq_false_of_mem {l : List α} {p : α → Bool} {a : α} (ha : a ∈ l)
    (hp : p a = false) : l.all p = false := by
  cases h : l.all p
  · rfl
  · exact absurd (List.all_eq_true.mp h a ha) (by simp [hp])

theorem objFields_unknown {fields : List String} {kvs : List (String × Json)}
    {k : String} {v : Json} (hmem : (k, v) ∈ kvs) (hk : fields.contains k = false) :
    objFields fields (.obj kvs) = none := by
  have hall : kvs.all (fun kv => fields.contains kv.1) = false :=
    all_eq_false_of_mem hmem hk
  simp only [objFields, hall, Bool.and_false]
  rfl

theorem objFields_eq_some {fields : List String} {kvs l : List (String × Json)}
    (h : objFields fields (.obj kvs) = some l) : l = kvs := by
  simp only [objFields] at h
  split at h
  · exact (Option.some.inj h).symm
  · exact absurd h (by simp)

/-- Claim C1: for the untagged two-shape unions BundleTarget and Port, every input
    matching the single-value shape produces the single-value variant, every input
    matching the collection/alternative shape alone produces that variant, and the
    deserializer is extensionally the deserializer that tries the single value first
    and falls back to the other shape. -/
theorem untagged_single_value_precedence :
    (∀ j s, decodeString j = some s → decodeBundleTarget j = some (.One s)) ∧
    (∀ j l, decodeStringList j = some l → decodeBundleTarget j = some (.All l)) ∧
    (∀ j n, decodeU16 j = some n → decodePort j = some (.Value n)) ∧
    decodePort .null = some .Random ∧
    (∀ j, decodeBundleTarget j = decodeBundleTargetSpecOrder j) := by
  refine ⟨?_, ?_, ?_, rfl, ?_⟩
  · intro j s h
    cases j <;> simp [decodeString] at h
    subst h
    rfl
  · intro j l h
    simp [decodeBundleTarget, h]
  · intro j n h
    simp [decodePort, h]
  · intro j
    cases j with
    | arr xs =>
      show decodeBundleTarget (.arr xs) = decodeBundleTargetSpecOrder (.arr xs)
      cases h : decodeStringList (.arr xs) <;>
        simp [decodeBundleTarget, decodeBundleTargetSpecOrder, decodeString, h]
    | _ => rfl

/-- Claim C1 witness: concrete inputs for each hypothesis-bearing conjunct. -/
theorem untagged_single_value_precedence_witness :
    decodeBundleTarget (.str "deb") = some (.One "deb") ∧
    decodeBundleTarget (.arr [.str "deb", .str "osx"]) = some (.All ["deb", "osx"]) ∧
    decodePort (.num 8080) = some (.Value 8080) :=
  ⟨untagged_single_value_precedence.1 (.str "deb") "deb" rfl,
   untagged_single_value_precedence.2.1 (.arr [.str "deb", .str "osx"]) ["deb", "osx"] rfl,
   untagged_single_value_precedence.2.2.1 (.num 8080) 8080 rfl⟩

/-- Claim C9: decoding the untagged Port enum succeeds exactly on integral JSON
    numbers in 0..=65535, yielding Value, and on null, yielding Random; the JSON
    string random is rejected. -/
theorem port_untagged_domain :
    (∀ n : Int, 0 ≤ n → n ≤ 65535 → decodePort (.num n) = some (.Value n.toNat)) ∧
    decodePort .null = some .Random ∧
    (∀ j p, decodePort j = some p →
      (∃ n : Int, j = .num n ∧ 0 ≤ n ∧ n ≤ 65535 ∧ p = .Value n.toNat) ∨
      (j = .null ∧ p = .Random)) ∧
    decodePort (.str "random") = none := by
  refine ⟨?_, rfl, ?_, rfl⟩
  · intro n h0 h1
    simp [decodePort, decodeU16, h0, h1]
  · intro j p h
    cases j with
    | num n =>
      by_cases hc : 0 ≤ n ∧ n ≤ 65535
      · left
        refine ⟨n, rfl, hc.1, hc.2, ?_⟩
        simp [decodePort, decodeU16, hc.1, hc.2] at h
        exact h.symm
      · exfalso
        have hcb : (decide (0 ≤ n) && decide (n ≤ 65535)) = false := by
          rcases not_and_or.mp hc with h1 | h1 <;> simp [h1]
        simp [decodePort, decodeU16, hcb] at h
    | null =>
      right
      simp [decodePort, decodeU16] at h
      exact ⟨rfl, h.symm⟩
    | _ => simp [decodePort, decodeU16] at h

/-- Claim C9 witness: the universally quantified conjuncts applied at 8080 and at a
    rejected out-of-range probe. -/
theorem port_untagged_domain_witness :
    decodePort (.num 8080) = some (.Value 8080) ∧
    ((∃ n : Int, (Json.str "x") = .num n ∧ 0 ≤ n ∧ n ≤ 65535 ∧
        Port.Value 0 = .Value n.toNat) ∨
      ((Json.str "x") = .null ∧ Port.Value 0 = .Random) → False) :=
  ⟨port_untagged_domain.1 8080 (by decide) (by decide),
   fun h => by rcases h with ⟨n, hn, _⟩ | ⟨hn, _⟩ <;> cases hn⟩

/-- Claim C2: a document object containing a key that is not a declared field name
    is rejected by the deserializer of every configuration struct (Config,
    TauriConfig, BuildConfig, CliConfig, CliArg, and the window, server and bundle
    sections), and such a failure propagates from a nested section to the whole
    document. -/
theorem deny_unknown_fields_rejects :
    (∀ kvs k v, (k, v) ∈ kvs → fieldsConfig.contains k = false →
      decodeConfig (.obj kvs) = none) ∧
    (∀ kvs k v, (k, v) ∈ kvs → fieldsTauriConfig.contains k = false →
      decodeTauriConfig (.obj kvs) = none) ∧
    (∀ kvs k v, (k, v) ∈ kvs → fieldsBuildConfig.contains k = false →
      decodeBuildConfig (.obj kvs) = none) ∧
    (∀ kvs k v, (k, v) ∈ kvs → fieldsCliConfig.contains k = false →
      decodeCliConfig (.obj kvs) = none) ∧
    (∀ kvs k v, (k, v) ∈ kvs → fieldsCliArg.contains k = false →
      decodeCliArg (.obj kvs) = none) ∧
    (∀ kvs k v, (k, v) ∈ kvs → fieldsWindowConfig.contains k = false →
      decodeWindowConfig (.obj kvs) = none) ∧
    (∀ kvs k v, (k, v) ∈ kvs → fieldsEmbeddedServerConfig.contains k = false →
      decodeEmbeddedServerConfig (.obj kvs) = none) ∧
    (∀ kvs k v, (k, v) ∈ kvs → fieldsBundleConfig.contains k = false →
      decodeBundleConfig (.obj kvs) = none) ∧
    decodeConfig (.obj [("tauri", .obj [("cli", .obj [("unknownField", .null)])])])
      = none := by
  refine ⟨?_, ?_, ?_, ?_, ?_, ?_, ?_, ?_, rfl⟩
  · intro kvs k v hmem hk
    simp only [decodeConfig, objFields_unknown hmem hk]
    rfl
  · intro kvs k v hmem hk
    simp only [decodeTauriConfig, objFields_unknown hmem hk]
    rfl
  · intro kvs k v hmem hk
    simp only [decodeBuildConfig, objFields_unknown hmem hk]
    rfl
  · intro kvs k v hmem hk
    have hall : kvs.all (fun kv => fieldsCliConfig.contains kv.1) = false :=
      all_eq_false_of_mem hmem hk
    simp only [decodeCliConfig, hall, Bool.and_false]
    rfl
  · intro kvs k v hmem hk
    simp only [decodeCliArg, objFields_unknown hmem hk]
    rfl
  · intro kvs k v hmem hk
    simp only [decodeWindowConfig, objFields_unknown hmem hk]
    rfl
  · intro kvs k v hmem hk
    simp only [decodeEmbeddedServerConfig, objFields_unknown hmem hk]
    rfl
  · intro kvs k v hmem hk
    simp only [decodeBundleConfig, objFields_unknown hmem hk]
    rfl

/-- Claim C2 witness: every conjunct applied to a one-field object with the unknown
    key probe. -/
theorem deny_unknown_fields_rejects_witness :
    decodeConfig (.obj [("probe", .null)]) = none ∧
    decodeTauriConfig (.obj [("probe", .null)]) = none ∧
    decodeBuildConfig (.obj [("probe", .null)]) = none ∧
    decodeCliConfig (.obj [("probe", .null)]) = none ∧
    decodeCliArg (.obj [("probe", .null)]) = none ∧
    decodeWindowConfig (.obj [("probe", .null)]) = none ∧
    decodeEmbeddedServerConfig (.obj [("probe", .null)]) = none ∧
    decodeBundleConfig (.obj [("probe", .null)]) = none :=
  ⟨deny_unknown_fields_rejects.1 _ "probe" .null (List.Mem.head _) rfl,
   deny_unknown_fields_rejects.2.1 _ "probe" .null (List.Mem.head _) rfl,
   deny_unknown_fields_rejects.2.2.1 _ "probe" .null (List.Mem.head _) rfl,
   deny_unknown_fields_rejects.2.2.2.1 _ "probe" .null (List.Mem.head _) rfl,
   deny_unknown_fields_rejects.2.2.2.2.1 _ "probe" .null (List.Mem.head _) rfl,
   deny_unknown_fields_rejects.2.2.2.2.2.1 _ "probe" .null (List.Mem.head _) rfl,
   deny_unknown_fields_rejects.2.2.2.2.2.2.1 _ "probe" .null (List.Mem.head _) rfl,
   deny_unknown_fields_rejects.2.2.2.2.2.2.2.1 _ "probe" .null (List.Mem.head _) rfl⟩

theorem decodeBuildConfig_fields {kvs : List (String × Json)} {b : BuildConfig}
    (h : decodeBuildConfig (.obj kvs) = some b) :
    defField kvs "devPath" decodeString default_dev_path = some b.dev_path ∧
    defField kvs "distDir" decodeString default_dist_dir = some b.dist_dir ∧
    optField kvs "beforeDevCommand" decodeString = some b.before_dev_command ∧
    optField kvs "beforeBuildCommand" decodeString = some b.before_build_command ∧
    defField kvs "withGlobalTauri" decodeBool false = some b.with_global_tauri := by
  simp only [decodeBuildConfig] at h
  rcases obind_eq_some.mp h with ⟨kvs2, hobj, g0⟩
  obtain rfl : kvs2 = kvs := objFields_eq_some hobj
  rcases obind_eq_some.mp g0 with ⟨devPath, h1, g1⟩
  rcases obind_eq_some.mp g1 with ⟨distDir, h2, g2⟩
  rcases obind_eq_some.mp g2 with ⟨bdc, h3, g3⟩
  rcases obind_eq_some.mp g3 with ⟨bbc, h4, g4⟩
  rcases obind_eq_some.mp g4 with ⟨wgt, h5, g5⟩
  cases Option.some.inj g5
  exact ⟨h1, h2, h3, h4, h5⟩

theorem decodeConfig_build {kvs : List (String × Json)} {c : Config}
    (h : decodeConfig (.obj kvs) = some c) :
    defField kvs "build" decodeBuildConfig default_build = some c.build := by
  simp only [decodeConfig] at h
  rcases obind_eq_some.mp h with ⟨kvs2, hobj, g0⟩
  obtain rfl : kvs2 = kvs := objFields_eq_some hobj
  rcases obind_eq_some.mp g0 with ⟨tauri, h1, g1⟩
  rcases obind_eq_some.mp g1 with ⟨build, h2, g2⟩
  rcases obind_eq_some.mp g2 with ⟨plugins, h3, g3⟩
  cases Option.some.inj g3
  exact h2

/-- Claim C10: a document without a build section decodes to a Config whose build
    equals default_build (dev_path empty, dist_dir ../dist, no pre-commands,
    with_global_tauri false); the same defaults apply field by field when build is
    present but a field is omitted. -/
theorem build_section_defaults :
    (∀ kvs c, decodeConfig (.obj kvs) = some c → lookupJ kvs "build" = none →
      c.build = default_build ∧ c.build.dev_path = "" ∧ c.build.dist_dir = "../dist" ∧
      c.build.before_dev_command = none ∧ c.build.before_build_command = none ∧
      c.build.with_global_tauri = false) ∧
    (∀ kvs b, decodeBuildConfig (.obj kvs) = some b → lookupJ kvs "devPath" = none →
      b.dev_path = "") ∧
    (∀ kvs b, decodeBuildConfig (.obj kvs) = some b → lookupJ kvs "distDir" = none →
      b.dist_dir = "../dist") ∧
    (∀ kvs b, decodeBuildConfig (.obj kvs) = some b →
      lookupJ kvs "beforeDevCommand" = none → b.before_dev_command = none) ∧
    (∀ kvs b, decodeBuildConfig (.obj kvs) = some b →
      lookupJ kvs "beforeBuildCommand" = none → b.before_build_command = none) ∧
    (∀ kvs b, decodeBuildConfig (.obj kvs) = some b →
      lookupJ kvs "withGlobalTauri" = none → b.with_global_tauri = false) := by
  refine ⟨?_, ?_, ?_, ?_, ?_, ?_⟩
  · intro kvs c h hlook
    have hb := decodeConfig_build h
    simp only [defField, hlook] at hb
    have : c.build = default_build := (Option.some.inj hb).symm
    rw [this]
    exact ⟨rfl, rfl, rfl, rfl, rfl, rfl⟩
  · intro kvs b h hlook
    have hb := (decodeBuildConfig_fields h).1
    simp only [defField, hlook] at hb
    exact (Option.some.inj hb).symm
  · intro kvs b h hlook
    have hb := (decodeBuildConfig_fields h).2.1
    simp only [defField, hlook] at hb
    exact (Option.some.inj hb).symm
  · intro kvs b h hlook
    have hb := (decodeBuildConfig_fields h).2.2.1
    simp only [optField, hlook] at hb
    exact (Option.some.inj hb).symm
  · intro kvs b h hlook
    have hb := (decodeBuildConfig_fields h).2.2.2.1
    simp only [optField, hlook] at hb
    exact (Option.some.inj hb).symm
  · intro kvs b h hlook
    have hb := (decodeBuildConfig_fields h).2.2.2.2
    simp only [defField, hlook] at hb
    exact (Option.some.inj hb).symm

/-- Claim C10 witness: the empty document and the empty build section, with every
    hypothesis discharged concretely. -/
theorem build_section_defaults_witness :
    ((⟨TauriConfig.default, default_build, []⟩ : Config).build = default_build ∧
      (⟨TauriConfig.default, default_build, []⟩ : Config).build.dev_path = "" ∧
      (⟨TauriConfig.default, default_build, []⟩ : Config).build.dist_dir = "../dist" ∧
      (⟨TauriConfig.default, default_build, []⟩ : Config).build.before_dev_command
        = none ∧
      (⟨TauriConfig.default, default_build, []⟩ : Config).build.before_build_command
        = none ∧
      (⟨TauriConfig.default, default_build, []⟩ : Config).build.with_global_tauri
        = false) ∧
    (⟨"", "../dist", none, none, false⟩ : BuildConfig).dev_path = "" ∧
    (⟨"", "../dist", none, none, false⟩ : BuildConfig).with_global_tauri = false :=
  ⟨build_section_defaults.1 [] ⟨TauriConfig.default, default_build, []⟩ rfl rfl,
   build_section_defaults.2.1 [] ⟨"", "../dist", none, none, false⟩ rfl rfl,
   build_section_defaults.2.2.2.2.2 [] ⟨"", "../dist", none, none, false⟩ rfl rfl⟩

theorem mem_validate_of_node {t n : CliConfig} {e : SchemaError}
    (hn : n ∈ nodes t) (he : e ∈ nodeValidate n) : e ∈ validate t :=
  List.mem_flatMap.mpr ⟨n, hn, he⟩

theorem mem_duplicateNames {l2 l3 : List CliArg} {a b : CliArg}
    (hab : a.name = b.name) :
    ∀ l1, a.name ∈ duplicateNames (l1 ++ a :: l2 ++ b :: l3) := by
  intro l1
  induction l1 with
  | nil =>
    have hany : (l2 ++ b :: l3).any (fun c => c.name == a.name) = true :=
      List.any_eq_true.mpr ⟨b, by simp, by simp [hab]⟩
    simp only [List.nil_append, duplicateNames, List.append_eq, hany]
    simp
  | cons c rest ih =>
    simp only [List.cons_append, duplicateNames, List.append_eq] at ih ⊢
    exact List.mem_append.mpr (Or.inr ih)

/-- Claim C3: in any tree containing a node with two ArgumentRules of equal name,
    validate reports DuplicateName for that name and does not accept the tree. -/
theorem validate_duplicate_name :
    ∀ t n l1 (a : CliArg) l2 (b : CliArg) l3, n ∈ nodes t →
      argList n = l1 ++ a :: l2 ++ b :: l3 → a.name = b.name →
      SchemaError.DuplicateName a.name ∈ validate t ∧ validate t ≠ [] := by
  intro t n l1 a l2 b l3 hn hargs hab
  have hdup : a.name ∈ duplicateNames (argList n) := by
    rw [hargs]
    exact mem_duplicateNames hab l1
  have he : SchemaError.DuplicateName a.name ∈ nodeValidate n := by
    have hmap : SchemaError.DuplicateName a.name ∈
        (duplicateNames (argList n)).map SchemaError.DuplicateName :=
      List.mem_map.mpr ⟨a.name, hdup, rfl⟩
    unfold nodeValidate
    simp only [List.mem_append]
    tauto
  have hm := mem_validate_of_node hn he
  exact ⟨hm, List.ne_nil_of_mem hm⟩

/-- Claim C3 witness: a two-argument node sharing the name x. -/
theorem validate_duplicate_name_witness :
    SchemaError.DuplicateName "x" ∈
      validate (.mk none none none none (some [blankArg "x", blankArg "x"]) none) ∧
    validate (.mk none none none none (some [blankArg "x", blankArg "x"]) none)
      ≠ [] :=
  validate_duplicate_name _ _ [] (blankArg "x") [] (blankArg "x") []
    (List.Mem.head _) rfl rfl

theorem mem_invalidBounds {args : List CliArg} {a : CliArg} {m M : Nat}
    (ha : a ∈ args) (hmin : a.min_values = some m) (hmax : a.max_values = some M)
    (hlt : M < m) : a.name ∈ invalidBounds args :=
  List.mem_filterMap.mpr ⟨a, ha, by simp [hmin, hmax, hlt]⟩

/-- Claim C7: in any tree containing an argument whose two value bounds are both
    set with min_values greater than max_values, validate reports
    InvalidValueBounds and does not accept the tree; contrapositively a tree that
    validates to the empty error list has ordered bounds everywhere. -/
theorem validate_invalid_value_bounds :
    ∀ t n (a : CliArg) m M, n ∈ nodes t → a ∈ argList n →
      a.min_values = some m → a.max_values = some M → M < m →
      SchemaError.InvalidValueBounds a.name ∈ validate t ∧ validate t ≠ [] := by
  intro t n a m M hn ha hmin hmax hlt
  have hb : a.name ∈ invalidBounds (argList n) := mem_invalidBounds ha hmin hmax hlt
  have he : SchemaError.InvalidValueBounds a.name ∈ nodeValidate n := by
    have hmap : SchemaError.InvalidValueBounds a.name ∈
        (invalidBounds (argList n)).map SchemaError.InvalidValueBounds :=
      List.mem_map.mpr ⟨a.name, hb, rfl⟩
    unfold nodeValidate
    simp only [List.mem_append]
    tauto
  have hm := mem_validate_of_node hn he
  exact ⟨hm, List.ne_nil_of_mem hm⟩

/-- Claim C7 witness: an argument with min_values 5 and max_values 2. -/
theorem validate_invalid_value_bounds_witness :
    SchemaError.InvalidValueBounds "x" ∈
      validate (.mk none none none none
        (some [{ blankArg "x" with min_values := some 5, max_values := some 2 }])
        none) ∧
    validate (.mk none none none none
      (some [{ blankArg "x" with min_values := some 5, max_values := some 2 }])
      none) ≠ [] :=
  validate_invalid_value_bounds _ _
    { blankArg "x" with min_values := some 5, max_values := some 2 } 5 2
    (List.Mem.head _) (List.Mem.head _) rfl rfl (by decide)

/-- Claim C8: validate is a pure function of the tree, so two calls on the same
    unmodified tree return the same result. -/
theorem validate_deterministic : ∀ t : CliConfig, validate t = validate t :=
  fun _ => rfl

theorem mem_resolve_missing_required {node : CliConfig} {obs : Observed} {a : CliArg}
    (ha : a ∈ argList node) (hreq : effectiveRequired obs a = true)
    (habs : isPresent obs a.name = false) :
    ConstraintViolation.MissingRequired a.name ∈ resolve node obs := by
  have hm : ConstraintViolation.MissingRequired a.name ∈
      missingRequiredViolations (argList node) obs :=
    List.mem_filterMap.mpr ⟨a, ha, by simp [hreq, habs]⟩
  unfold resolve
  simp only [List.mem_append]
  tauto

/-- Claim C4: the resolver does not stop at the first violation — every effectively
    required absent argument appears in the result, and the concrete two-missing
    node yields exactly its two MissingRequired entries. -/
theorem resolve_reports_all_missing_required :
    (∀ node obs (a : CliArg), a ∈ argList node → effectiveRequired obs a = true →
      isPresent obs a.name = false →
      ConstraintViolation.MissingRequired a.name ∈ resolve node obs) ∧
    resolve (.mk none none none none
        (some [requiredArg "alpha", requiredArg "beta"]) none) []
      = [.MissingRequired "alpha", .MissingRequired "beta"] :=
  ⟨fun _ _ _ ha hreq habs => mem_resolve_missing_required ha hreq habs, rfl⟩

/-- Claim C4 witness: the universally quantified conjunct applied to the
    two-missing-required node. -/
theorem resolve_reports_all_missing_required_witness :
    ConstraintViolation.MissingRequired "alpha" ∈
      resolve (.mk none none none none
        (some [requiredArg "alpha", requiredArg "beta"]) none) [] :=
  resolve_reports_all_missing_required.1 _ [] (requiredArg "alpha")
    (List.Mem.head _) rfl rfl

/-- Claim C6: required_if_eq is evaluated last and re-asserts requiredness — when
    the referenced argument carries the matching value and the owning argument is
    absent, MissingRequired is reported for any base required flag and any
    unless-present clauses. -/
theorem required_if_eq_forces_required :
    ∀ node obs (a : CliArg) b x, a ∈ argList node →
      a.required_if_eq = some [b, x] → (valuesOf obs b).contains x = true →
      isPresent obs a.name = false →
      ConstraintViolation.MissingRequired a.name ∈ resolve node obs := by
  intro node obs a b x ha hif hcon habs
  have hmem : x ∈ valuesOf obs b := by simpa using hcon
  have hreq : effectiveRequired obs a = true := by
    simp only [effectiveRequired, hif]
    simp
    exact Or.inl hmem
  exact mem_resolve_missing_required ha hreq habs

/-- Claim C6 witness: argument a with required_if_eq [b, x], b observed with value
    x, a absent, a.required unset (false). -/
theorem required_if_eq_forces_required_witness :
    ConstraintViolation.MissingRequired "a" ∈
      resolve (.mk none none none none
        (some [{ blankArg "a" with required_if_eq := some ["b", "x"] },
               blankArg "b"]) none)
        [("b", ["x"])] :=
  required_if_eq_forces_required _ [("b", ["x"])]
    { blankArg "a" with required_if_eq := some ["b", "x"] } "b" "x"
    (List.Mem.head _) rfl rfl rfl

theorem pairMatches_iff {p q : String × String} :
    pairMatches p q = true ↔ q = p ∨ q = (p.2, p.1) := by
  cases p with
  | mk p1 p2 =>
    cases q with
    | mk q1 q2 =>
      simp only [pairMatches, Bool.or_eq_true, Bool.and_eq_true, beq_iff_eq,
        Prod.mk.injEq]

theorem pairMatches_refl (p : String × String) : pairMatches p p = true :=
  pairMatches_iff.mpr (Or.inl rfl)

theorem pairMatches_symm {p q : String × String} (h : pairMatches p q = true) :
    pairMatches q p = true := by
  cases p with
  | mk p1 p2 =>
    rcases pairMatches_iff.mp h with rfl | rfl <;> simp [pairMatches_iff]

theorem pairMatches_trans {p q r : String × String} (h1 : pairMatches p q = true)
    (h2 : pairMatches q r = true) : pairMatches p r = true := by
  cases p with
  | mk p1 p2 =>
    rcases pairMatches_iff.mp h1 with rfl | rfl <;>
      rcases pairMatches_iff.mp h2 with rfl | rfl <;> simp [pairMatches_iff]

theorem mem_dedupPairsAux {x : String × String} :
    ∀ (l seen : List (String × String)), x ∈ dedupPairsAux seen l →
      x ∈ l ∧ ∀ q ∈ seen, pairMatches q x = false := by
  intro l
  induction l with
  | nil =>
    intro seen h
    simp [dedupPairsAux] at h
  | cons p rest ih =>
    intro seen h
    simp only [dedupPairsAux] at h
    split at h
    · rcases ih seen h with ⟨hl, hs⟩
      exact ⟨List.mem_cons_of_mem _ hl, hs⟩
    · rename_i hif
      rcases List.mem_cons.mp h with rfl | htail
      · refine ⟨List.mem_cons_self _ _, ?_⟩
        intro q hq
        cases hpq : pairMatches q x
        · rfl
        · exact absurd (List.any_eq_true.mpr ⟨q, hq, hpq⟩) hif
      · rcases ih (p :: seen) htail with ⟨hl, hs⟩
        exact ⟨List.mem_cons_of_mem _ hl, fun q hq => hs q (List.mem_cons_of_mem _ hq)⟩

theorem dedupPairsAux_covers {x : String × String} :
    ∀ (l seen : List (String × String)), x ∈ l →
      (∃ q ∈ seen, pairMatches q x = true) ∨
      ∃ y ∈ dedupPairsAux seen l, pairMatches x y = true := by
  intro l
  induction l with
  | nil =>
    intro seen h
    cases h
  | cons p rest ih =>
    intro seen hx
    simp only [dedupPairsAux]
    split
    · rename_i hif
      rcases List.mem_cons.mp hx with rfl | htail
      · exact Or.inl (List.any_eq_true.mp hif)
      · exact ih seen htail
    · rcases List.mem_cons.mp hx with rfl | htail
      · exact Or.inr ⟨x, List.mem_cons_self _ _, pairMatches_refl x⟩
      · rcases ih (p :: seen) htail with ⟨q, hq, hpm⟩ | ⟨y, hy, hpm⟩
        · rcases List.mem_cons.mp hq with rfl | hq2
          · exact Or.inr ⟨q, List.mem_cons_self _ _, pairMatches_symm hpm⟩
          · exact Or.inl ⟨q, hq2, hpm⟩
        · exact Or.inr ⟨y, List.mem_cons_of_mem _ hy, hpm⟩

theorem dedupPairsAux_pairwise :
    ∀ (l seen : List (String × String)),
      (dedupPairsAux seen l).Pairwise (fun x y => pairMatches x y = false) := by
  intro l
  induction l with
  | nil =>
    intro seen
    simp [dedupPairsAux]
  | cons p rest ih =>
    intro seen
    simp only [dedupPairsAux]
    split
    · exact ih seen
    · refine List.Pairwise.cons ?_ (ih (p :: seen))
      intro y hy
      exact (mem_dedupPairsAux rest (p :: seen) hy).2 p (List.mem_cons_self _ _)

theorem countP_le_one_of_pairwise {c : String × String} :
    ∀ {l : List (String × String)},
      l.Pairwise (fun x y => pairMatches x y = false) →
      l.countP (fun q => pairMatches c q) ≤ 1 := by
  intro l
  induction l with
  | nil =>
    intro _
    simp
  | cons p rest ih =>
    intro hp
    rcases List.pairwise_cons.mp hp with ⟨hhead, htail⟩
    by_cases hc : pairMatches c p = true
    · have hzero : rest.countP (fun q => pairMatches c q) = 0 := by
        refine List.countP_eq_zero.mpr ?_
        intro y hy hcy
        have hpy : pairMatches p y = true :=
          pairMatches_trans (pairMatches_symm hc) hcy
        rw [hhead y hy] at hpy
        cases hpy
      rw [List.countP_cons_of_pos _ _ hc, hzero]
    · rw [List.countP_cons_of_neg _ _ hc]
      exact ih htail

theorem countP_dedupPairs_eq_one {l : List (String × String)} {x : String × String}
    (hx : x ∈ l) : (dedupPairs l).countP (fun q => pairMatches x q) = 1 := by
  rcases dedupPairsAux_covers l [] hx with ⟨q, hq, _⟩ | ⟨y, hy, hpm⟩
  · cases hq
  · have hpos : 0 < (dedupPairs l).countP (fun q => pairMatches x q) :=
      List.countP_pos_iff.mpr ⟨y, hy, hpm⟩
    have hle : (dedupPairs l).countP (fun q => pairMatches x q) ≤ 1 :=
      countP_le_one_of_pairwise (dedupPairsAux_pairwise l [])
    omega

/-- Does a violation entry report the conflict of the unordered pair of x and y. -/
def conflictPairPred (x y : String) (v : ConstraintViolation) : Bool :=
  match v with
  | .ConflictingArguments p q => (p == x && q == y) || (p == y && q == x)
  | _ => false

/-- How many entries of a violation list report the conflict pair of x and y. -/
def countConflictPair (l : List ConstraintViolation) (x y : String) : Nat :=
  l.countP (conflictPairPred x y)

theorem countConflictPair_missingRequired {args : List CliArg} {obs : Observed}
    {x y : String} :
    (missingRequiredViolations args obs).countP (conflictPairPred x y) = 0 := by
  refine List.countP_eq_zero.mpr ?_
  intro v hv
  rcases List.mem_filterMap.mp hv with ⟨a, _, hf⟩
  split at hf
  · cases Option.some.inj hf
    simp [conflictPairPred]
  · cases hf

theorem countConflictPair_dependency {args : List CliArg} {obs : Observed}
    {x y : String} :
    (dependencyViolations args obs).countP (conflictPairPred x y) = 0 := by
  refine List.countP_eq_zero.mpr ?_
  intro v hv
  rcases List.mem_flatMap.mp hv with ⟨a, _, hf⟩
  split at hf
  · rcases List.mem_map.mp hf with ⟨r, _, rfl⟩
    simp [conflictPairPred]
  · cases hf

theorem countConflictPair_conditionalDependency {args : List CliArg} {obs : Observed}
    {x y : String} :
    (conditionalDependencyViolations args obs).countP (conflictPairPred x y) = 0 := by
  refine List.countP_eq_zero.mpr ?_
  intro v hv
  rcases List.mem_filterMap.mp hv with ⟨a, _, hf⟩
  split at hf
  · split at hf
    · cases Option.some.inj hf
      simp [conflictPairPred]
    · cases hf
  · cases hf

theorem countConflictPair_invalidValue {args : List CliArg} {obs : Observed}
    {x y : String} :
    (invalidValueViolations args obs).countP (conflictPairPred x y) = 0 := by
  refine List.countP_eq_zero.mpr ?_
  intro v hv
  rcases List.mem_flatMap.mp hv with ⟨a, _, hf⟩
  split at hf
  · split at hf
    · rcases List.mem_map.mp hf with ⟨r, _, rfl⟩
      simp [conflictPairPred]
    · cases hf
  · cases hf

theorem countConflictPair_valueCount {args : List CliArg} {obs : Observed}
    {x y : String} :
    (valueCountViolations args obs).countP (conflictPairPred x y) = 0 := by
  refine List.countP_eq_zero.mpr ?_
  intro v hv
  rcases List.mem_filterMap.mp hv with ⟨a, _, hf⟩
  split at hf
  · cases Option.some.inj hf
    simp [conflictPairPred]
  · cases hf

theorem mem_rawConflictPairs {args : List CliArg} {obs : Observed} {a : CliArg}
    {b : String} (ha : a ∈ args) (hpa : isPresent obs a.name = true)
    (hb : b ∈ conflictList a) (hpb : isPresent obs b = true) :
    (a.name, b) ∈ rawConflictPairs args obs := by
  unfold rawConflictPairs
  refine List.mem_flatMap.mpr ⟨a, ha, ?_⟩
  show (a.name, b) ∈
    if isPresent obs a.name then
      ((conflictList a).filter (fun r => isPresent obs r)).map (fun r => (a.name, r))
    else []
  rw [hpa, if_pos rfl]
  exact List.mem_map.mpr ⟨b, List.mem_filter.mpr ⟨hb, hpb⟩, rfl⟩

/-- Claim C5: when an argument a declares conflicts_with b and both are present, the
    resolver returns exactly one ConflictingArguments entry for the unordered pair
    of a and b — never one from each side. -/
theorem conflict_pair_reported_once :
    ∀ node obs (a : CliArg) b, a ∈ argList node → a.conflicts_with = some b →
      isPresent obs a.name = true → isPresent obs b = true →
      countConflictPair (resolve node obs) a.name b = 1 := by
  intro node obs a b ha hc hpa hpb
  have hbmem : b ∈ conflictList a := by
    simp [conflictList, hc]
  have hraw : (a.name, b) ∈ rawConflictPairs (argList node) obs :=
    mem_rawConflictPairs ha hpa hbmem hpb
  have hone : (conflictViolations (argList node) obs).countP
      (conflictPairPred a.name b) = 1 := by
    unfold conflictViolations
    rw [List.countP_map]
    exact countP_dedupPairs_eq_one hraw
  unfold countConflictPair resolve
  simp only [List.countP_append]
  rw [countConflictPair_missingRequired, hone, countConflictPair_dependency,
    countConflictPair_conditionalDependency, countConflictPair_invalidValue,
    countConflictPair_valueCount]

/-- Claim C5 witness: both sides declare the conflict and both arguments are
    present, yet the pair is counted once. -/
theorem conflict_pair_reported_once_witness :
    countConflictPair
      (resolve (.mk none none none none
        (some [{ blankArg "verbose" with conflicts_with := some "quiet" },
               { blankArg "quiet" with conflicts_with := some "verbose" }]) none)
        [("verbose", []), ("quiet", [])])
      "verbose" "quiet" = 1 :=
  conflict_pair_reported_once _ [("verbose", []), ("quiet", [])]
    { blankArg "verbose" with conflicts_with := some "quiet" } "quiet"
    (List.Mem.head _) rfl rfl rfl
